import Mathlib

/-!
Verification development for the SurvivorPool backend.

The definitions below are a shallow embedding of the contest engine in
src/app.js and src/serve.mjs (the validation and day-processing logic of
POST /api/picks and POST /api/admin/process-day, and the helper
getRequiredPicks). JavaScript objects used as day-keyed maps are embedded
as association lists in insertion order; JavaScript truthiness of a string
field (empty string and absence are falsy) is made explicit where the code
relies on it.
-/

namespace SurvivorPool

/-- Day-keyed map read, embedding JavaScript property access m[day]. -/
def getDay {α : Type} (m : List (String × α)) (day : String) : Option α :=
  match m with
  | [] => none
  | (k, v) :: rest => if k = day then some v else getDay rest day

/-- Day-keyed map write, embedding m[day] = v: overwrite the existing key
or append a new key at the end of insertion order. -/
def setDay {α : Type} (m : List (String × α)) (day : String) (v : α) :
    List (String × α) :=
  match m with
  | [] => [(day, v)]
  | (k, x) :: rest =>
      if k = day then (day, v) :: rest else (k, x) :: setDay rest day v

/-- Player record, from the shape written by POST /api/admin/player. -/
structure Player where
  id : Nat
  name : String
  status : String
  buybacks : Nat
  needsBuyback : Bool
  totalSpent : Nat
  picks : List (String × List String)
  results : List (String × String)
  deriving Repr, DecidableEq

/-- The configuration fields the contest engine reads. -/
structure Config where
  teams : List String
  buybackDays : List String
  currentDay : String
  deriving Repr, DecidableEq

/-- One game of a given day, with the fields process-day reads: the
finality flag and the recorded winner (none when the field is absent,
and an empty string is treated as falsy, as in the source). -/
structure Game where
  id : Nat
  final : Bool
  winner : Option String
  deriving Repr, DecidableEq

/-- The fixed ten-day sequence DAY_ORDER from the source. -/
def DAY_ORDER : List String :=
  ["thursday_r1", "friday_r1", "saturday_r2", "sunday_r2",
   "thursday_s16", "friday_s16", "saturday_e8", "sunday_e8",
   "saturday_ff", "monday_champ"]

/-- getRequiredPicks from the source. -/
def getRequiredPicks (player : Player) (day : String) : Nat :=
  if !player.needsBuyback then
    if day = "thursday_r1" ∨ day = "friday_r1" then 2 else 1
  else
    if day = "friday_r1" then 4 else 3

/-- The validation failures of POST /api/picks, named as in the spec. -/
inductive PickError where
  | AlreadySubmitted
  | DuplicatePick
  | TeamReused
  | InvalidTeam
  | WrongPickCount
  | BuybackLimitReached
  | BuybackNotAllowedToday
  deriving Repr, DecidableEq

/-- Object.values(player.picks).flat() from the source. -/
def usedTeams (player : Player) : List String :=
  (player.picks.map Prod.snd).flatten

/-- The per-player core of POST /api/picks: the validation chain and,
on success, the updated player record. An error result means the stored
state is not changed (the route writes players back only on success). -/
def submitPick (config : Config) (player : Player) (day : String)
    (picks : List String) (isBuyback : Bool) : Except PickError Player :=
  if (getDay player.picks day).isSome then
    .error .AlreadySubmitted
  else if picks.dedup.length ≠ picks.length then
    .error .DuplicatePick
  else if picks.any (fun t => (usedTeams player).contains t) then
    .error .TeamReused
  else if picks.any (fun t => !(config.teams.contains t)) then
    .error .InvalidTeam
  else if picks.length ≠ getRequiredPicks player day then
    .error .WrongPickCount
  else if isBuyback then
    if player.buybacks ≥ 3 then
      .error .BuybackLimitReached
    else if !(config.buybackDays.contains day) then
      .error .BuybackNotAllowedToday
    else
      .ok { player with
              status := "alive",
              buybacks := player.buybacks + 1,
              totalSpent := player.totalSpent + 25,
              needsBuyback := false,
              picks := setDay player.picks day picks,
              results := setDay player.results day "pending" }
  else
    .ok { player with
            picks := setDay player.picks day picks,
            results := setDay player.results day "pending" }

/-- JavaScript truthiness of the winner field: absent and empty are falsy. -/
def winnerTruthy : Option String → Bool
  | none => false
  | some s => s ≠ ""

/-- The winners set of a day: every game marked final whose winner field
is truthy contributes its winner. Membership mirrors Set.has. -/
def dayWinners (games : List Game) : List String :=
  games.filterMap fun g =>
    if g.final then
      match g.winner with
      | some w => if w ≠ "" then some w else none
      | none => none
    else none

/-- The per-player body of the process-day loop. -/
def processPlayer (config : Config) (winners : List String) (day : String)
    (p : Player) : Player :=
  if p.status ≠ "alive" then p
  else
    match getDay p.picks day with
    | none => p
    | some playerPicks =>
        if playerPicks.isEmpty then p
        else if playerPicks.all (fun team => winners.contains team) then
          { p with results := setDay p.results day "win" }
        else
          if config.buybackDays.contains day ∧ p.buybacks < 3 then
            { p with results := setDay p.results day "loss",
                     needsBuyback := true,
                     status := "eliminated" }
          else
            { p with results := setDay p.results day "loss",
                     status := "eliminated",
                     needsBuyback := false }

/-- One line of the summary returned by process-day. -/
structure SummaryEntry where
  id : Nat
  name : String
  status : String
  result : Option String
  deriving Repr, DecidableEq

/-- p.results[day] or null: an absent or empty recorded result reads as
none, mirroring the JavaScript expression with the or-null fallback. -/
def resultOrNull : Option String → Option String
  | none => none
  | some s => if s ≠ "" then some s else none

/-- js Array.prototype.indexOf on a list of strings: index of the first
occurrence, or minus one when absent. -/
def jsIndexOfAux (l : List String) (x : String) (acc : Nat) : Int :=
  match l with
  | [] => -1
  | y :: rest => if y = x then (acc : Int) else jsIndexOfAux rest x (acc + 1)

/-- DAY_ORDER.indexOf(day). -/
def jsIndexOf (l : List String) (x : String) : Int :=
  jsIndexOfAux l x 0

/-- The outcome of POST /api/admin/process-day. -/
structure ProcessResult where
  config : Config
  players : List Player
  summary : List SummaryEntry
  deriving Repr, DecidableEq

/-- POST /api/admin/process-day: evaluate every alive player with picks
for the day against the winners set, advance currentDay inside the fixed
sequence, and report a summary line per player. -/
def processDay (config : Config) (players : List Player) (games : List Game)
    (day : String) : ProcessResult :=
  let winners := dayWinners games
  let newPlayers := players.map (processPlayer config winners day)
  let dayIdx := jsIndexOf DAY_ORDER day
  let newConfig :=
    if 0 ≤ dayIdx ∧ dayIdx < (DAY_ORDER.length : Int) - 1 then
      { config with currentDay := DAY_ORDER.getD (dayIdx.toNat + 1) "" }
    else config
  { config := newConfig,
    players := newPlayers,
    summary := newPlayers.map fun p =>
      { id := p.id, name := p.name, status := p.status,
        result := resultOrNull (getDay p.results day) } }

/-- The mutating operations of the engine, as invoked by the two routes:
a pick submission addressed to one player id, or a day processing run
with the games recorded for that day. -/
inductive Op where
  | submit (playerId : Nat) (day : String) (picks : List String)
      (isBuyback : Bool)
  | process (games : List Game) (day : String)

/-- Effect of one operation on a single player record: a submission
touches the player only when the id matches and validation succeeds,
and a process run applies the per-player loop body. -/
def stepPlayer (config : Config) (op : Op) (p : Player) : Player :=
  match op with
  | .submit pid day picks isBuyback =>
      if p.id = pid then
        match submitPick config p day picks isBuyback with
        | .ok q => q
        | .error _ => p
      else p
  | .process games day => processPlayer config (dayWinners games) day p

/-- Stored contest state: the config record and the player list. -/
structure PoolState where
  config : Config
  players : List Player
  deriving Repr, DecidableEq

/-- Effect of one operation on the stored state. -/
def applyOp (s : PoolState) (op : Op) : PoolState :=
  match op with
  | .submit _ _ _ _ =>
      { s with players := s.players.map (stepPlayer s.config op) }
  | .process games day =>
      let r := processDay s.config s.players games day
      { config := r.config, players := r.players }

/-- Run a sequence of operations from a starting state. -/
def runOps (s : PoolState) : List Op → PoolState
  | [] => s
  | op :: rest => runOps (applyOp s op) rest

/-! Concrete data used to exercise the theorems on closed inputs. -/

/-- A small concrete configuration. -/
def cfgW : Config :=
  { teams := ["Duke", "UNC", "Kansas", "Gonzaga"],
    buybackDays := ["saturday_r2", "sunday_r2"],
    currentDay := "thursday_r1" }

/-- Concrete games for one day: Duke and Kansas win final games, the UNC
game is not final, and one final game has no recorded winner. -/
def gamesW : List Game :=
  [{ id := 1, final := true, winner := some "Duke" },
   { id := 2, final := true, winner := some "Kansas" },
   { id := 3, final := false, winner := some "UNC" },
   { id := 4, final := true, winner := none }]

/-- An eliminated player with no pending-buyback flag and no picks yet. -/
def deadW : Player :=
  { id := 1, name := "Ann", status := "eliminated", buybacks := 0,
    needsBuyback := false, totalSpent := 25, picks := [],
    results := [] }

/-- An alive player who already picked Duke and UNC on the first day. -/
def submittedW : Player :=
  { id := 2, name := "Bea", status := "alive", buybacks := 0,
    needsBuyback := false, totalSpent := 25,
    picks := [("thursday_r1", ["Duke", "UNC"])],
    results := [("thursday_r1", "pending")] }

/-- An alive player with one prior buyback who picked UNC for the day. -/
def calW : Player :=
  { id := 3, name := "Cal", status := "alive", buybacks := 1,
    needsBuyback := false, totalSpent := 50,
    picks := [("saturday_r2", ["UNC"])],
    results := [("saturday_r2", "pending")] }

/-- An eliminated player whose picks for the day are already recorded
with a pending result. -/
def bobW : Player :=
  { id := 7, name := "Bob", status := "eliminated", buybacks := 0,
    needsBuyback := false, totalSpent := 25,
    picks := [("saturday_r2", ["Gonzaga"])],
    results := [("saturday_r2", "pending")] }

/-- An alive player who picked the winner Duke for the day. -/
def winW : Player :=
  { id := 4, name := "Dee", status := "alive", buybacks := 0,
    needsBuyback := false, totalSpent := 25,
    picks := [("saturday_r2", ["Duke"])],
    results := [("saturday_r2", "pending")] }

/-- A concrete starting state for exercising operation sequences. -/
def stateW : PoolState :=
  { config := cfgW, players := [deadW, winW] }

/-- A concrete operation sequence: a buyback submission by player one
followed by processing of the buyback-eligible day. -/
def opsW : List Op :=
  [Op.submit 1 "saturday_r2" ["Kansas"] true,
   Op.process gamesW "saturday_r2"]

/-! Helper lemmas shared by the claim theorems. -/

/-- Writing a day key and reading it back yields the written value. -/
theorem getDay_setDay_self {α : Type} (m : List (String × α)) (day : String)
    (v : α) : getDay (setDay m day v) day = some v := by
  induction m with
  | nil => simp [setDay, getDay]
  | cons hd tl ih =>
      obtain ⟨k, x⟩ := hd
      by_cases h : k = day <;> simp [setDay, getDay, h, ih]

/-- The per-player loop of process-day never touches the buyback count. -/
theorem processPlayer_buybacks (c : Config) (w : List String) (day : String)
    (p : Player) : (processPlayer c w day p).buybacks = p.buybacks := by
  unfold processPlayer
  split
  · rfl
  · split
    · rfl
    · split
      · rfl
      · split
        · rfl
        · split <;> rfl

/-- The per-player loop of process-day skips players that are not alive. -/
theorem processPlayer_not_alive (c : Config) (w : List String) (day : String)
    (p : Player) (h : p.status ≠ "alive") : processPlayer c w day p = p := by
  unfold processPlayer
  simp [h]

/-- Inversion of a successful pick submission: either it was not a
buyback and only the day maps changed, or it was a buyback passing the
count and day gates and the buyback transition was applied as well. -/
theorem submitPick_ok_inv (c : Config) (p : Player) (day : String)
    (picks : List String) (b : Bool) (q : Player)
    (h : submitPick c p day picks b = .ok q) :
    (b = false ∧
       q = { p with picks := setDay p.picks day picks,
                    results := setDay p.results day "pending" }) ∨
    (b = true ∧ p.buybacks < 3 ∧ c.buybackDays.contains day = true ∧
       q = { p with status := "alive", buybacks := p.buybacks + 1,
                    totalSpent := p.totalSpent + 25, needsBuyback := false,
                    picks := setDay p.picks day picks,
                    results := setDay p.results day "pending" }) := by
  unfold submitPick at h
  split at h
  · exact (Except.noConfusion h)
  split at h
  · exact (Except.noConfusion h)
  split at h
  · exact (Except.noConfusion h)
  split at h
  · exact (Except.noConfusion h)
  split at h
  · exact (Except.noConfusion h)
  split at h
  · rename_i hb
    split at h
    · exact (Except.noConfusion h)
    split at h
    · exact (Except.noConfusion h)
    · rename_i hlim helig
      right
      refine ⟨hb, by omega, ?_, (Except.ok.inj h).symm⟩
      simpa using helig
  · rename_i hb
    left
    exact ⟨by simpa using hb, (Except.ok.inj h).symm⟩

/-- The player list returned by process-day is the per-player map. -/
theorem processDay_players (c : Config) (players : List Player)
    (games : List Game) (day : String) :
    (processDay c players games day).players =
      players.map (processPlayer c (dayWinners games) day) := rfl

/-- One operation keeps a buyback count that is at most three at most
three. -/
theorem stepPlayer_buybacks_le (c : Config) (op : Op) (p : Player)
    (h : p.buybacks ≤ 3) : (stepPlayer c op p).buybacks ≤ 3 := by
  cases op with
  | submit pid day picks b =>
      simp only [stepPlayer]
      split
      · cases hq : submitPick c p day picks b with
        | error e => simp [hq, h]
        | ok q =>
            simp only [hq]
            rcases submitPick_ok_inv c p day picks b q hq with
              ⟨-, rfl⟩ | ⟨-, hlt, -, rfl⟩
            · exact h
            · show p.buybacks + 1 ≤ 3
              omega
      · exact h
  | process games day =>
      simp only [stepPlayer, processPlayer_buybacks]
      exact h

/-- One state transition preserves the buyback bound on every player. -/
theorem applyOp_buybacks_le (s : PoolState) (op : Op)
    (h : ∀ p ∈ s.players, p.buybacks ≤ 3) :
    ∀ p ∈ (applyOp s op).players, p.buybacks ≤ 3 := by
  cases op with
  | submit pid day picks b =>
      intro p hp
      simp only [applyOp, List.mem_map] at hp
      obtain ⟨q, hq, rfl⟩ := hp
      exact stepPlayer_buybacks_le s.config _ q (h q hq)
  | process games day =>
      intro p hp
      simp only [applyOp, processDay_players, List.mem_map] at hp
      obtain ⟨q, hq, rfl⟩ := hp
      rw [processPlayer_buybacks]
      exact h q hq

/-- Any run of operations preserves the buyback bound on every player. -/
theorem runOps_buybacks_le (ops : List Op) (s : PoolState)
    (h : ∀ p ∈ s.players, p.buybacks ≤ 3) :
    ∀ p ∈ (runOps s ops).players, p.buybacks ≤ 3 := by
  induction ops generalizing s with
  | nil => exact h
  | cons op rest ih => exact ih (applyOp s op) (applyOp_buybacks_le s op h)

/-! Claim theorems. -/

/-- C3: getRequiredPicks returns 2 when the needs-buyback flag is false
and the day is one of the first two days of the sequence, 1 when the
flag is false on any other day, 4 when the flag is true on the second
day, and 3 when the flag is true on any other day. -/
theorem getRequiredPicks_table (p : Player) (day : String) :
    getRequiredPicks p day =
      if p.needsBuyback then (if day = "friday_r1" then 4 else 3)
      else (if day = "thursday_r1" ∨ day = "friday_r1" then 2 else 1) := by
  unfold getRequiredPicks
  cases h : p.needsBuyback <;> simp

/-- C6: when a pick list is already recorded for the target day, any
submission for that day fails with AlreadySubmitted, buyback or not, and
no updated player record is produced, so the stored state is unchanged. -/
theorem submitPick_already_submitted_rejects (c : Config) (p : Player)
    (day : String) (picks : List String) (b : Bool)
    (h : (getDay p.picks day).isSome = true) :
    submitPick c p day picks b = .error .AlreadySubmitted := by
  unfold submitPick
  simp [h]

/-- C6 witness: a concrete resubmission, marked as a buyback, is
rejected with AlreadySubmitted. -/
theorem submitPick_already_submitted_rejects_witness :
    submitPick cfgW submittedW "thursday_r1" ["Kansas"] true =
      .error .AlreadySubmitted :=
  submitPick_already_submitted_rejects cfgW submittedW "thursday_r1"
    ["Kansas"] true (by decide)

/-- C2: the validation checks of a pick submission fire in the fixed
order AlreadySubmitted, DuplicatePick, TeamReused, InvalidTeam,
WrongPickCount, with the first failing check deciding the reported
error, so no later error is returned when an earlier check fails. -/
theorem submitPick_validation_order (c : Config) (p : Player) (day : String)
    (picks : List String) (b : Bool) :
    ((getDay p.picks day).isSome = true →
        submitPick c p day picks b = .error .AlreadySubmitted) ∧
    ((getDay p.picks day).isSome = false →
        picks.dedup.length ≠ picks.length →
        submitPick c p day picks b = .error .DuplicatePick) ∧
    ((getDay p.picks day).isSome = false →
        picks.dedup.length = picks.length →
        picks.any (fun t => (usedTeams p).contains t) = true →
        submitPick c p day picks b = .error .TeamReused) ∧
    ((getDay p.picks day).isSome = false →
        picks.dedup.length = picks.length →
        picks.any (fun t => (usedTeams p).contains t) = false →
        picks.any (fun t => !(c.teams.contains t)) = true →
        submitPick c p day picks b = .error .InvalidTeam) ∧
    ((getDay p.picks day).isSome = false →
        picks.dedup.length = picks.length →
        picks.any (fun t => (usedTeams p).contains t) = false →
        picks.any (fun t => !(c.teams.contains t)) = false →
        picks.length ≠ getRequiredPicks p day →
        submitPick c p day picks b = .error .WrongPickCount) := by
  refine ⟨?_, ?_, ?_, ?_, ?_⟩
  · intro h1
    unfold submitPick
    rw [if_pos h1]
  · intro h1 h2
    unfold submitPick
    rw [if_neg (by rw [h1]; exact Bool.false_ne_true), if_pos h2]
  · intro h1 h2 h3
    unfold submitPick
    rw [if_neg (by rw [h1]; exact Bool.false_ne_true), if_neg (fun hne => hne h2), if_pos h3]
  · intro h1 h2 h3 h4
    unfold submitPick
    rw [if_neg (by rw [h1]; exact Bool.false_ne_true), if_neg (fun hne => hne h2),
        if_neg (by rw [h3]; exact Bool.false_ne_true), if_pos h4]
  · intro h1 h2 h3 h4 h5
    unfold submitPick
    rw [if_neg (by rw [h1]; exact Bool.false_ne_true), if_neg (fun hne => hne h2),
        if_neg (by rw [h3]; exact Bool.false_ne_true), if_neg (by rw [h4]; exact Bool.false_ne_true), if_pos h5]

/-- C2 witness: a concrete submission reusing an earlier pick is
rejected with TeamReused even though the pick count is also wrong. -/
theorem submitPick_validation_order_witness :
    submitPick cfgW submittedW "saturday_r2" ["Duke", "Kansas"] false =
      .error .TeamReused :=
  (submitPick_validation_order cfgW submittedW "saturday_r2"
      ["Duke", "Kansas"] false).2.2.1 (by decide) (by decide) (by decide)

/-- Reduction of the per-player loop body for an alive player with a
non-empty recorded pick list. -/
theorem processPlayer_eval (c : Config) (winners : List String)
    (day : String) (p : Player) (l : List String)
    (halive : p.status = "alive") (hl : getDay p.picks day = some l)
    (hemp : l.isEmpty = false) :
    processPlayer c winners day p =
      if (l.all fun t => winners.contains t) = true then
        { p with results := setDay p.results day "win" }
      else if c.buybackDays.contains day ∧ p.buybacks < 3 then
        { p with results := setDay p.results day "loss",
                 needsBuyback := true, status := "eliminated" }
      else
        { p with results := setDay p.results day "loss",
                 status := "eliminated", needsBuyback := false } := by
  unfold processPlayer
  split
  · rename_i hcon
    exact absurd halive hcon
  split
  · rename_i hnone
    rw [hl] at hnone
    exact Option.noConfusion hnone
  · rename_i pp hpp
    rw [hl] at hpp
    obtain rfl := Option.some.inj hpp
    rw [if_neg (by rw [hemp]; exact Bool.false_ne_true)]

/-- C1: process-day evaluates every alive player with a non-empty pick
list recorded for the day: result win and status still alive when every
picked team is in the winners set, otherwise result loss and status
eliminated with the needs-buyback flag set exactly when the day is
buyback-eligible and the buyback count is below three. -/
theorem processDay_evaluates_alive_players (c : Config)
    (players : List Player) (games : List Game) (day : String) (p : Player)
    (hp : p ∈ players) (halive : p.status = "alive") (l : List String)
    (hl : getDay p.picks day = some l) (hne : l ≠ []) :
    processPlayer c (dayWinners games) day p ∈
        (processDay c players games day).players ∧
    ((l.all fun t => (dayWinners games).contains t) = true →
        getDay (processPlayer c (dayWinners games) day p).results day =
          some "win" ∧
        (processPlayer c (dayWinners games) day p).status = "alive") ∧
    ((l.all fun t => (dayWinners games).contains t) = false →
        getDay (processPlayer c (dayWinners games) day p).results day =
          some "loss" ∧
        (processPlayer c (dayWinners games) day p).status = "eliminated" ∧
        (processPlayer c (dayWinners games) day p).needsBuyback =
          (c.buybackDays.contains day && decide (p.buybacks < 3))) := by
  have hemp : l.isEmpty = false := by
    cases l with
    | nil => exact absurd rfl hne
    | cons a t => rfl
  have he := processPlayer_eval c (dayWinners games) day p l halive hl hemp
  refine ⟨?_, ?_, ?_⟩
  · rw [processDay_players]
    exact List.mem_map_of_mem _ hp
  · intro hall
    rw [he, if_pos hall]
    exact ⟨getDay_setDay_self _ _ _, halive⟩
  · intro hall
    rw [he, if_neg (by rw [hall]; exact Bool.false_ne_true)]
    by_cases hd : c.buybackDays.contains day = true
    · by_cases hb : p.buybacks < 3
      · rw [if_pos ⟨hd, hb⟩]
        exact ⟨getDay_setDay_self _ _ _, rfl, by rw [hd]; simp [hb]⟩
      · rw [if_neg (fun hcon => hb hcon.2)]
        exact ⟨getDay_setDay_self _ _ _, rfl, by rw [hd]; simp [hb]⟩
    · rw [if_neg (fun hcon => hd hcon.1)]
      refine ⟨getDay_setDay_self _ _ _, rfl, ?_⟩
      have hdf : c.buybackDays.contains day = false := by
        cases hcc : c.buybackDays.contains day
        · rfl
        · exact absurd hcc hd
      rw [hdf]
      rfl

/-- C1 witness: the player who picked UNC on a buyback-eligible day
where UNC did not win is marked loss, eliminated, and owed a buyback. -/
theorem processDay_evaluates_alive_players_witness :
    getDay (processPlayer cfgW (dayWinners gamesW) "saturday_r2"
        calW).results "saturday_r2" = some "loss" ∧
    (processPlayer cfgW (dayWinners gamesW) "saturday_r2" calW).status =
      "eliminated" ∧
    (processPlayer cfgW (dayWinners gamesW) "saturday_r2"
        calW).needsBuyback = true := by
  have h := (processDay_evaluates_alive_players cfgW [calW] gamesW
      "saturday_r2" calW (by decide) rfl ["UNC"] rfl (by decide)).2.2
      (by decide)
  exact ⟨h.1, h.2.1, by rw [h.2.2]; decide⟩

/-- C4: a buyback submission that passed the earlier checks fails with
BuybackLimitReached when the buyback count is already three, regardless
of the day; otherwise it fails with BuybackNotAllowedToday when the day
is not buyback-eligible; otherwise the buyback transition applies:
status alive, buyback count plus one, spend plus 25, flag cleared. -/
theorem submitPick_buyback_rules (c : Config) (p : Player) (day : String)
    (picks : List String)
    (h1 : (getDay p.picks day).isSome = false)
    (h2 : picks.dedup.length = picks.length)
    (h3 : (picks.any fun t => (usedTeams p).contains t) = false)
    (h4 : (picks.any fun t => !(c.teams.contains t)) = false)
    (h5 : picks.length = getRequiredPicks p day) :
    (p.buybacks = 3 →
        submitPick c p day picks true = .error .BuybackLimitReached) ∧
    (p.buybacks < 3 → c.buybackDays.contains day = false →
        submitPick c p day picks true = .error .BuybackNotAllowedToday) ∧
    (p.buybacks < 3 → c.buybackDays.contains day = true →
        submitPick c p day picks true =
          .ok { p with status := "alive", buybacks := p.buybacks + 1,
                       totalSpent := p.totalSpent + 25,
                       needsBuyback := false,
                       picks := setDay p.picks day picks,
                       results := setDay p.results day "pending" }) := by
  refine ⟨?_, ?_, ?_⟩
  · intro hb
    unfold submitPick
    rw [if_neg (by rw [h1]; exact Bool.false_ne_true),
        if_neg (fun hne => hne h2),
        if_neg (by rw [h3]; exact Bool.false_ne_true),
        if_neg (by rw [h4]; exact Bool.false_ne_true),
        if_neg (fun hne => hne h5), if_pos rfl, if_pos (by omega)]
  · intro hb hd
    unfold submitPick
    rw [if_neg (by rw [h1]; exact Bool.false_ne_true),
        if_neg (fun hne => hne h2),
        if_neg (by rw [h3]; exact Bool.false_ne_true),
        if_neg (by rw [h4]; exact Bool.false_ne_true),
        if_neg (fun hne => hne h5), if_pos rfl, if_neg (by omega), hd]
    simp
  · intro hb hd
    unfold submitPick
    rw [if_neg (by rw [h1]; exact Bool.false_ne_true),
        if_neg (fun hne => hne h2),
        if_neg (by rw [h3]; exact Bool.false_ne_true),
        if_neg (by rw [h4]; exact Bool.false_ne_true),
        if_neg (fun hne => hne h5), if_pos rfl, if_neg (by omega), hd]
    simp

/-- C4 witness: a concrete eliminated player with no prior buybacks who
buys back on an eligible day gets the full buyback transition. -/
theorem submitPick_buyback_rules_witness :
    submitPick cfgW deadW "saturday_r2" ["Duke"] true =
      .ok { deadW with status := "alive", buybacks := deadW.buybacks + 1,
                       totalSpent := deadW.totalSpent + 25,
                       needsBuyback := false,
                       picks := setDay deadW.picks "saturday_r2" ["Duke"],
                       results :=
                         setDay deadW.results "saturday_r2" "pending" } :=
  (submitPick_buyback_rules cfgW deadW "saturday_r2" ["Duke"] (by decide)
      (by decide) (by decide) (by decide) (by decide)).2.2 (by decide)
      (by decide)

/-- The configuration returned by process-day, written out. -/
theorem processDay_config_eq (c : Config) (players : List Player)
    (games : List Game) (day : String) :
    (processDay c players games day).config =
      if 0 ≤ jsIndexOf DAY_ORDER day ∧
         jsIndexOf DAY_ORDER day < (DAY_ORDER.length : Int) - 1 then
        { c with currentDay :=
            DAY_ORDER.getD ((jsIndexOf DAY_ORDER day).toNat + 1) "" }
      else c := rfl

/-- C5: processing any day of the fixed sequence moves currentDay to the
immediate successor in the sequence, except for the final day, which
leaves currentDay unchanged. -/
theorem processDay_advances_currentDay (c : Config) (players : List Player)
    (games : List Game) (day : String) (h : day ∈ DAY_ORDER) :
    (day = "monday_champ" →
        (processDay c players games day).config.currentDay =
          c.currentDay) ∧
    (day ≠ "monday_champ" →
        ∃ i, DAY_ORDER.get? i = some day ∧
          DAY_ORDER.get? (i + 1) =
            some (processDay c players games day).config.currentDay) := by
  simp only [DAY_ORDER, List.mem_cons, List.not_mem_nil, or_false] at h
  rcases h with rfl | rfl | rfl | rfl | rfl | rfl | rfl | rfl | rfl | rfl
  · exact ⟨fun hx => absurd hx (by decide), fun _ => ⟨0, rfl, rfl⟩⟩
  · exact ⟨fun hx => absurd hx (by decide), fun _ => ⟨1, rfl, rfl⟩⟩
  · exact ⟨fun hx => absurd hx (by decide), fun _ => ⟨2, rfl, rfl⟩⟩
  · exact ⟨fun hx => absurd hx (by decide), fun _ => ⟨3, rfl, rfl⟩⟩
  · exact ⟨fun hx => absurd hx (by decide), fun _ => ⟨4, rfl, rfl⟩⟩
  · exact ⟨fun hx => absurd hx (by decide), fun _ => ⟨5, rfl, rfl⟩⟩
  · exact ⟨fun hx => absurd hx (by decide), fun _ => ⟨6, rfl, rfl⟩⟩
  · exact ⟨fun hx => absurd hx (by decide), fun _ => ⟨7, rfl, rfl⟩⟩
  · exact ⟨fun hx => absurd hx (by decide), fun _ => ⟨8, rfl, rfl⟩⟩
  · exact ⟨fun _ => rfl, fun hx => absurd rfl hx⟩

/-- C5 witness: processing the final day leaves currentDay where it was. -/
theorem processDay_advances_currentDay_witness :
    (processDay cfgW [] gamesW "monday_champ").config.currentDay =
      cfgW.currentDay :=
  (processDay_advances_currentDay cfgW [] gamesW "monday_champ"
      (by decide)).1 rfl

/-- C7: from any state where every player has at most three buybacks,
every sequence of pick submissions and day-processing operations keeps
every buyback count at most three; a successful submission increments
the count only from strictly below three, and the per-player
day-processing step never modifies it. The count is a natural number,
so the lower bound zero holds throughout. -/
theorem buybacks_invariant (s : PoolState) (ops : List Op)
    (h : ∀ p ∈ s.players, p.buybacks ≤ 3) :
    (∀ p ∈ (runOps s ops).players, p.buybacks ≤ 3) ∧
    (∀ (c : Config) (p : Player) (day : String) (picks : List String)
        (b : Bool) (q : Player),
        submitPick c p day picks b = .ok q →
        q.buybacks = p.buybacks ∨
          (p.buybacks < 3 ∧ q.buybacks = p.buybacks + 1)) ∧
    (∀ (c : Config) (w : List String) (day : String) (p : Player),
        (processPlayer c w day p).buybacks = p.buybacks) := by
  refine ⟨runOps_buybacks_le ops s h, ?_, processPlayer_buybacks⟩
  intro c p day picks b q hq
  rcases submitPick_ok_inv c p day picks b q hq with
    ⟨-, rfl⟩ | ⟨-, hlt, -, rfl⟩
  · exact Or.inl rfl
  · exact Or.inr ⟨hlt, rfl⟩

/-- C7 witness: the bound holds on the first player after a concrete
buyback submission followed by a day processing run. -/
theorem buybacks_invariant_witness :
    ((runOps stateW opsW).players.getD 0 deadW).buybacks ≤ 3 :=
  (buybacks_invariant stateW opsW (by decide)).1 _ (by decide)

/-- C8 counterexample: an eliminated player whose needs-buyback flag is
false is revived to alive by a buyback-marked submission on an eligible
day, so the eliminated-to-alive transition is not gated on the
needs-buyback flag as the claim states. -/
theorem buyback_without_flag_revives :
    deadW.status = "eliminated" ∧ deadW.needsBuyback = false ∧
    (stepPlayer cfgW (Op.submit 1 "saturday_r2" ["Duke"] true)
        deadW).status = "alive" :=
  ⟨rfl, rfl, rfl⟩

/-- C8 amended: the only per-player transition from eliminated to alive
is a pick submission marked as a buyback, and it requires only that the
buyback count is below three and the target day is buyback-eligible
(the needs-buyback flag is not consulted); day-processing never moves a
player out of eliminated. -/
theorem eliminated_to_alive_only_by_buyback (c : Config) (op : Op)
    (p : Player) (he : p.status = "eliminated")
    (ha : (stepPlayer c op p).status = "alive") :
    match op with
    | .submit _ day _ b =>
        b = true ∧ c.buybackDays.contains day = true ∧ p.buybacks < 3
    | .process _ _ => False := by
  have hne : p.status ≠ "alive" := by
    rw [he]
    decide
  cases op with
  | process games day =>
      have hstep : stepPlayer c (Op.process games day) p = p := by
        simp only [stepPlayer]
        exact processPlayer_not_alive c (dayWinners games) day p hne
      rw [hstep] at ha
      exact hne ha
  | submit pid day picks b =>
      simp only [stepPlayer] at ha
      by_cases hid : p.id = pid
      · rw [if_pos hid] at ha
        cases hq : submitPick c p day picks b with
        | error e =>
            simp only [hq] at ha
            exact absurd ha hne
        | ok q =>
            simp only [hq] at ha
            rcases submitPick_ok_inv c p day picks b q hq with
              ⟨hb, rfl⟩ | ⟨hb, hlt, hcd, rfl⟩
            · exact absurd ha hne
            · exact ⟨hb, hcd, hlt⟩
      · rw [if_neg hid] at ha
        exact absurd ha hne

/-- C8 amended witness: a concrete revival satisfies the buyback-count
and day-eligibility conditions that gate the transition. -/
theorem eliminated_to_alive_only_by_buyback_witness :
    true = true ∧ cfgW.buybackDays.contains "saturday_r2" = true ∧
      deadW.buybacks < 3 :=
  eliminated_to_alive_only_by_buyback cfgW
    (Op.submit 1 "saturday_r2" ["Duke"] true) deadW rfl (by decide)

/-- The per-player loop skips a player with no pick list for the day. -/
theorem processPlayer_no_picks (c : Config) (w : List String)
    (day : String) (p : Player) (h : getDay p.picks day = none) :
    processPlayer c w day p = p := by
  unfold processPlayer
  split
  · rfl
  split
  · rfl
  · rename_i pp hpp
    rw [h] at hpp
    exact Option.noConfusion hpp

/-- The per-player loop skips a player with an empty pick list. -/
theorem processPlayer_empty_picks (c : Config) (w : List String)
    (day : String) (p : Player) (h : getDay p.picks day = some []) :
    processPlayer c w day p = p := by
  unfold processPlayer
  split
  · rfl
  split
  · rfl
  · rename_i pp hpp
    rw [h] at hpp
    obtain rfl := Option.some.inj hpp
    rfl

/-- C9 counterexample: a player skipped because they are eliminated
still reports the previously recorded pending result for the day in the
summary, not none as the claim states. -/
theorem summary_result_for_skipped_player :
    bobW.status ≠ "alive" ∧
    (processDay cfgW [bobW] gamesW "saturday_r2").summary =
      [{ id := 7, name := "Bob", status := "eliminated",
         result := some "pending" }] :=
  ⟨by decide, rfl⟩

/-- C9 amended: the summary has one entry per player carrying id, name
and post-processing status, with the result field read back from the
recorded results for the day with the or-null fallback; evaluated
players carry the computed win or loss, while skipped players are left
unchanged so their entry shows whatever result was already recorded for
the day, or none when no result is recorded. -/
theorem processDay_summary_spec (c : Config) (players : List Player)
    (games : List Game) (day : String) :
    ((processDay c players games day).summary =
        (processDay c players games day).players.map fun p =>
          { id := p.id, name := p.name, status := p.status,
            result := resultOrNull (getDay p.results day) }) ∧
    (∀ p ∈ players, p.status = "alive" → ∀ l,
        getDay p.picks day = some l → l ≠ [] →
        getDay (processPlayer c (dayWinners games) day p).results day =
          some (if (l.all fun t => (dayWinners games).contains t) = true
                then "win" else "loss")) ∧
    (∀ p ∈ players, p.status ≠ "alive" →
        processPlayer c (dayWinners games) day p = p) ∧
    (∀ p ∈ players, getDay p.picks day = none →
        processPlayer c (dayWinners games) day p = p) ∧
    (∀ p ∈ players, getDay p.picks day = some [] →
        processPlayer c (dayWinners games) day p = p) := by
  refine ⟨rfl, ?_, ?_, ?_, ?_⟩
  · intro p hp halive l hl hne
    have hemp : l.isEmpty = false := by
      cases l with
      | nil => exact absurd rfl hne
      | cons a t => rfl
    rw [processPlayer_eval c (dayWinners games) day p l halive hl hemp]
    by_cases hall : (l.all fun t => (dayWinners games).contains t) = true
    · rw [if_pos hall, if_pos hall]
      exact getDay_setDay_self _ _ _
    · rw [if_neg hall, if_neg hall]
      by_cases hd : c.buybackDays.contains day ∧ p.buybacks < 3
      · rw [if_pos hd]
        exact getDay_setDay_self _ _ _
      · rw [if_neg hd]
        exact getDay_setDay_self _ _ _
  · intro p hp hna
    exact processPlayer_not_alive c (dayWinners games) day p hna
  · intro p hp hnone
    exact processPlayer_no_picks c (dayWinners games) day p hnone
  · intro p hp hempty
    exact processPlayer_empty_picks c (dayWinners games) day p hempty

/-- C9 amended witness: an evaluated player whose single pick won has
the computed result recorded for the day. -/
theorem processDay_summary_spec_witness :
    getDay (processPlayer cfgW (dayWinners gamesW) "saturday_r2"
        winW).results "saturday_r2" =
      some (if ((["Duke"].all fun t =>
                (dayWinners gamesW).contains t)) = true then "win"
            else "loss") :=
  (processDay_summary_spec cfgW [winW] gamesW "saturday_r2").2.1 winW
    (by decide) rfl ["Duke"] rfl (by decide)

/-- C10: submission never checks status: a valid non-buyback submission
by an eliminated player is accepted, records the pick list with a
pending result, and leaves status, buyback count, spend and the
needs-buyback flag untouched. -/
theorem submitPick_ignores_status (c : Config) (p : Player) (day : String)
    (picks : List String) (hstat : p.status = "eliminated")
    (h1 : (getDay p.picks day).isSome = false)
    (h2 : picks.dedup.length = picks.length)
    (h3 : (picks.any fun t => (usedTeams p).contains t) = false)
    (h4 : (picks.any fun t => !(c.teams.contains t)) = false)
    (h5 : picks.length = getRequiredPicks p day) :
    ∃ q, submitPick c p day picks false = .ok q ∧
      getDay q.picks day = some picks ∧
      getDay q.results day = some "pending" ∧
      q.status = "eliminated" ∧ q.buybacks = p.buybacks ∧
      q.totalSpent = p.totalSpent ∧ q.needsBuyback = p.needsBuyback := by
  refine ⟨{ p with picks := setDay p.picks day picks,
                   results := setDay p.results day "pending" }, ?_,
          getDay_setDay_self _ _ _, getDay_setDay_self _ _ _, hstat, rfl,
          rfl, rfl⟩
  unfold submitPick
  rw [if_neg (by rw [h1]; exact Bool.false_ne_true),
      if_neg (fun hne => hne h2),
      if_neg (by rw [h3]; exact Bool.false_ne_true),
      if_neg (by rw [h4]; exact Bool.false_ne_true),
      if_neg (fun hne => hne h5)]
  rfl

/-- C10 witness: a concrete eliminated player submits a valid
non-buyback pick and stays eliminated. -/
theorem submitPick_ignores_status_witness :
    (submitPick cfgW deadW "thursday_s16" ["UNC"] false).toOption.map
        Player.status = some "eliminated" := by
  obtain ⟨q, hq, -, -, hs, -, -, -⟩ := submitPick_ignores_status cfgW deadW
    "thursday_s16" ["UNC"] rfl (by decide) (by decide) (by decide)
    (by decide) (by decide)
  rw [hq]
  simp [Except.toOption, hs]

end SurvivorPool
